import Mathlib

/-!
Verification of the resource-managed extraction-job orchestrator
(TikTok downloader server) against its specification.

The development shallowly embeds the JavaScript source:

* `download-queue.js` — `DownloadQueue` (bounded-concurrency scheduler,
  batch records, per-item download with fallback strategies, status lookup);
* `server.js` — `ErrorRecovery.analyzePage` (page diagnostics);
* `browser-manager.js` — `BrowserManager` (launch coalescing, page pool,
  request-count recycling);
* the rate limiter module — `RateLimiter.waitForSlot`.

Pure computations become Lean functions; the stateful singletons become
explicit state records with step functions, and the asynchronous timeline
(calls, completions, timer firings) becomes lists of events folded over the
state.  Times are `Int` milliseconds, mirroring `Date.now()` arithmetic.
-/

/-! ## Download queue: bounded-concurrency scheduler (`download-queue.js`) -/

/-- `MAX_CONCURRENT = 3` from `download-queue.js`. -/
def MAX_CONCURRENT : Nat := 3

/-- The scheduler-relevant state of `DownloadQueue`: the pending FIFO
(job ids) and the `activeDownloads` counter. -/
structure DownloadQueueState where
  queue : List Nat
  activeDownloads : Nat
deriving Repr, DecidableEq

/-- The `while` loop of `DownloadQueue.processQueue`: while the queue is
nonempty and `activeDownloads < MAX_CONCURRENT`, shift a job and start it
(`activeDownloads++`). -/
def processQueueAux : List Nat → Nat → List Nat × Nat
  | [], a => ([], a)
  | j :: rest, a =>
    if a < MAX_CONCURRENT then processQueueAux rest (a + 1) else (j :: rest, a)

/-- `DownloadQueue.processQueue` acting on the scheduler state. -/
def processQueue (s : DownloadQueueState) : DownloadQueueState :=
  let r := processQueueAux s.queue s.activeDownloads
  ⟨r.1, r.2⟩

/-- Scheduler-visible events: a batch submission (`addBatch` pushes its jobs
and invokes `processQueue`) and the completion of one active download
(the `.finally` handler decrements `activeDownloads` and re-invokes
`processQueue`).  A `finish` event can only occur for a previously started
download, so it is a no-op when nothing is active. -/
inductive DQEvent where
  | submit (jobs : List Nat)
  | finish
deriving Repr, DecidableEq

/-- One scheduler step of `DownloadQueue`. -/
def dqStep (s : DownloadQueueState) : DQEvent → DownloadQueueState
  | DQEvent.submit jobs => processQueue ⟨s.queue ++ jobs, s.activeDownloads⟩
  | DQEvent.finish =>
    if s.activeDownloads = 0 then s
    else processQueue ⟨s.queue, s.activeDownloads - 1⟩

/-- The queue singleton starts with an empty FIFO and no active downloads. -/
def dqInit : DownloadQueueState := ⟨[], 0⟩

/-- Run the scheduler over an event timeline. -/
def dqRun (evs : List DQEvent) : DownloadQueueState :=
  evs.foldl dqStep dqInit

theorem processQueueAux_active_le (q : List Nat) (a : Nat)
    (h : a ≤ MAX_CONCURRENT) : (processQueueAux q a).2 ≤ MAX_CONCURRENT := by
  induction q generalizing a with
  | nil => simpa [processQueueAux] using h
  | cons j rest ih =>
    simp only [processQueueAux]
    by_cases hlt : a < MAX_CONCURRENT
    · simpa [hlt] using ih (a + 1) hlt
    · simpa [hlt] using h

theorem dqStep_active_le (s : DownloadQueueState) (e : DQEvent)
    (h : s.activeDownloads ≤ MAX_CONCURRENT) :
    (dqStep s e).activeDownloads ≤ MAX_CONCURRENT := by
  cases e with
  | submit jobs => exact processQueueAux_active_le _ _ h
  | finish =>
    simp only [dqStep]
    by_cases h0 : s.activeDownloads = 0
    · simp [h0, h]
    · rw [if_neg h0]
      exact processQueueAux_active_le s.queue (s.activeDownloads - 1) (by omega)

/-- C6: for every event timeline (batch submissions and job completions),
the `activeDownloads` counter of the download queue never exceeds
`MAX_CONCURRENT = 3`; moreover the scheduler loop starts no job once
`activeDownloads` has reached the cap (it leaves the state unchanged). -/
theorem downloadQueue_active_bounded :
    (∀ evs : List DQEvent, (dqRun evs).activeDownloads ≤ MAX_CONCURRENT) ∧
    (∀ q a, MAX_CONCURRENT ≤ a → processQueue ⟨q, a⟩ = ⟨q, a⟩) := by
  constructor
  · intro evs
    suffices h : ∀ s : DownloadQueueState, s.activeDownloads ≤ MAX_CONCURRENT →
        (evs.foldl dqStep s).activeDownloads ≤ MAX_CONCURRENT by
      exact h dqInit (by simp [dqInit])
    induction evs with
    | nil => intro s hs; simpa using hs
    | cons e rest ih =>
      intro s hs
      exact ih (dqStep s e) (dqStep_active_le s e hs)
  · intro q a ha
    cases q with
    | nil => simp [processQueue, processQueueAux]
    | cons j rest => simp [processQueue, processQueueAux, Nat.not_lt.mpr ha]

/-- Witness for C6: a concrete timeline (a 5-job batch, then completions)
stays within the cap, and a saturated scheduler state is left unchanged. -/
theorem downloadQueue_active_bounded_witness :
    (dqRun [DQEvent.submit [0, 1, 2, 3, 4], DQEvent.finish]).activeDownloads
        ≤ MAX_CONCURRENT ∧
    processQueue ⟨[9], 3⟩ = ⟨[9], 3⟩ :=
  ⟨downloadQueue_active_bounded.1 [DQEvent.submit [0, 1, 2, 3, 4], DQEvent.finish],
   downloadQueue_active_bounded.2 [9] 3 (by decide)⟩

/-! ## Download queue: batch records and per-item downloads -/

/-- One batch record, as stored in `DownloadQueue.results`.
`deleteScheduled` records that the 5-minute retention deletion
(`setTimeout(() => this.results.delete(jobId), 5 * 60 * 1000)`)
has been scheduled. -/
structure BatchRecord where
  status : String
  total : Nat
  completed : Nat
  failed : Nat
  items : List (String × String)
  deleteScheduled : Bool
deriving Repr, DecidableEq

/-- The record that `DownloadQueue.addBatch` stores into `results` for a
batch of `n` items: `status: 'processing'`, zero counters, no items yet.
`addBatch` itself never consults `checkJobComplete`. -/
def addBatchRecord (n : Nat) : BatchRecord :=
  ⟨"processing", n, 0, 0, [], false⟩

/-- `DownloadQueue.checkJobComplete`: once `completed + failed >= total`,
mark the batch `complete` and schedule its deletion after the retention
window. -/
def checkJobComplete (r : BatchRecord) : BatchRecord :=
  if r.total ≤ r.completed + r.failed then
    { r with status := "complete", deleteScheduled := true }
  else r

/-- The inputs that decide one `downloadItem` run: whether the user folder
and the destination file already exist, and the payloads (byte lengths)
returned by the two fetch strategies (`none` = the strategy yielded no
buffer). -/
structure ItemJob where
  filename : String
  folderExists : Bool
  fileExists : Bool
  fetchBuf : Option Nat
  pptrBuf : Option Nat
deriving Repr, DecidableEq

/-- Side effects a `downloadItem` run can perform, in order. -/
inductive Effect where
  | mkdirUserFolder
  | fetchAttempt
  | puppeteerAttempt
  | writeDestFile
deriving Repr, DecidableEq

/-- `DownloadQueue.downloadItem`: create the user folder if missing; if the
destination file exists, record the item as `skipped` (counted in
`completed`) and return; otherwise try `tryFetchDownload`, then
`tryPuppeteerDownload`; a missing or short (< 1000 bytes) buffer throws,
recorded as `failed`; otherwise the buffer is written and the item is
`success`.  Every exit path runs `checkJobComplete`. -/
def downloadItem (r : BatchRecord) (job : ItemJob) : BatchRecord × List Effect :=
  let effs : List Effect :=
    if job.folderExists then [] else [Effect.mkdirUserFolder]
  if job.fileExists then
    (checkJobComplete { r with
        completed := r.completed + 1,
        items := r.items ++ [(job.filename, "skipped")] }, effs)
  else
    let effs := effs ++ [Effect.fetchAttempt]
    let step :=
      match job.fetchBuf with
      | none => (job.pptrBuf, effs ++ [Effect.puppeteerAttempt])
      | some b => (some b, effs)
    match step with
    | (some b, effs) =>
      if b < 1000 then
        (checkJobComplete { r with
            failed := r.failed + 1,
            items := r.items ++ [(job.filename, "failed")] }, effs)
      else
        (checkJobComplete { r with
            completed := r.completed + 1,
            items := r.items ++ [(job.filename, "success")] },
          effs ++ [Effect.writeDestFile])
    | (none, effs) =>
      (checkJobComplete { r with
          failed := r.failed + 1,
          items := r.items ++ [(job.filename, "failed")] }, effs)

/-- C8: when the destination file already exists, `downloadItem` marks the
item `skipped`, counts it toward `completed`, leaves `failed` untouched, and
performs neither fetch strategy nor any write of the destination file. -/
theorem downloadItem_skips_existing (r : BatchRecord) (job : ItemJob)
    (h : job.fileExists = true) :
    (downloadItem r job).1.completed = r.completed + 1 ∧
    (downloadItem r job).1.failed = r.failed ∧
    (downloadItem r job).1.items = r.items ++ [(job.filename, "skipped")] ∧
    Effect.fetchAttempt ∉ (downloadItem r job).2 ∧
    Effect.puppeteerAttempt ∉ (downloadItem r job).2 ∧
    Effect.writeDestFile ∉ (downloadItem r job).2 := by
  simp only [downloadItem, h, if_true]
  refine ⟨?_, ?_, ?_, ?_, ?_, ?_⟩
  · simp only [checkJobComplete]; split <;> rfl
  · simp only [checkJobComplete]; split <;> rfl
  · simp only [checkJobComplete]; split <;> rfl
  · split <;> simp
  · split <;> simp
  · split <;> simp

/-- Witness for C8 at a concrete record and job. -/
theorem downloadItem_skips_existing_witness :
    (downloadItem (addBatchRecord 2) ⟨"v1.mp4", true, true, some 5000, none⟩).1.completed
        = (addBatchRecord 2).completed + 1 ∧
    (downloadItem (addBatchRecord 2) ⟨"v1.mp4", true, true, some 5000, none⟩).1.failed
        = (addBatchRecord 2).failed ∧
    (downloadItem (addBatchRecord 2) ⟨"v1.mp4", true, true, some 5000, none⟩).1.items
        = (addBatchRecord 2).items ++ [("v1.mp4", "skipped")] ∧
    Effect.fetchAttempt ∉ (downloadItem (addBatchRecord 2) ⟨"v1.mp4", true, true, some 5000, none⟩).2 ∧
    Effect.puppeteerAttempt ∉ (downloadItem (addBatchRecord 2) ⟨"v1.mp4", true, true, some 5000, none⟩).2 ∧
    Effect.writeDestFile ∉ (downloadItem (addBatchRecord 2) ⟨"v1.mp4", true, true, some 5000, none⟩).2 :=
  downloadItem_skips_existing (addBatchRecord 2) ⟨"v1.mp4", true, true, some 5000, none⟩ rfl

/-! ## Batch completion (C7) -/

/-- Run a batch's items through `downloadItem` sequentially, keeping only
the evolving record (the effects are irrelevant to batch status). -/
def runBatchSteps (r : BatchRecord) (jobs : List ItemJob) : BatchRecord :=
  jobs.foldl (fun r j => (downloadItem r j).1) r

/-- The reachable shape of a batch record: `processing` with the deletion
unscheduled while short of `total`, or `complete` with the deletion
scheduled once the counters reached `total`. -/
def BatchPhase (r : BatchRecord) : Prop :=
  (r.status = "processing" ∧ r.deleteScheduled = false ∧
      r.completed + r.failed < r.total) ∨
  (r.status = "complete" ∧ r.deleteScheduled = true ∧
      r.total ≤ r.completed + r.failed)

theorem downloadItem_record (r : BatchRecord) (j : ItemJob) :
    ∃ c f st, c + f = 1 ∧
      (downloadItem r j).1 = checkJobComplete { r with
        completed := r.completed + c,
        failed := r.failed + f,
        items := r.items ++ [(j.filename, st)] } := by
  cases hfe : j.fileExists with
  | true =>
    exact ⟨1, 0, "skipped", rfl, by simp [downloadItem, hfe]⟩
  | false =>
    cases hfb : j.fetchBuf with
    | some b =>
      by_cases hb : b < 1000
      · exact ⟨0, 1, "failed", rfl, by simp [downloadItem, hfe, hfb, hb]⟩
      · exact ⟨1, 0, "success", rfl, by simp [downloadItem, hfe, hfb, hb]⟩
    | none =>
      cases hpb : j.pptrBuf with
      | some b =>
        by_cases hb : b < 1000
        · exact ⟨0, 1, "failed", rfl, by simp [downloadItem, hfe, hfb, hpb, hb]⟩
        · exact ⟨1, 0, "success", rfl, by simp [downloadItem, hfe, hfb, hpb, hb]⟩
      | none => exact ⟨0, 1, "failed", rfl, by simp [downloadItem, hfe, hfb, hpb]⟩

theorem downloadItem_counters (r : BatchRecord) (j : ItemJob) :
    (downloadItem r j).1.completed + (downloadItem r j).1.failed
      = r.completed + r.failed + 1 ∧
    (downloadItem r j).1.total = r.total := by
  obtain ⟨c, f, st, hcf, heq⟩ := downloadItem_record r j
  rw [heq]
  simp only [checkJobComplete]
  split <;> simp <;> omega

theorem downloadItem_status (r : BatchRecord) (j : ItemJob) :
    (downloadItem r j).1.status
        = (if r.total ≤ r.completed + r.failed + 1 then "complete" else r.status) ∧
    (downloadItem r j).1.deleteScheduled
        = (if r.total ≤ r.completed + r.failed + 1 then true else r.deleteScheduled) := by
  obtain ⟨c, f, st, hcf, heq⟩ := downloadItem_record r j
  rw [heq]
  have hsum : r.completed + c + (r.failed + f) = r.completed + r.failed + 1 := by omega
  simp only [checkJobComplete]
  by_cases hfin : r.total ≤ r.completed + r.failed + 1
  · rw [if_pos (by omega), if_pos hfin, if_pos hfin]
    simp
  · rw [if_neg (by omega), if_neg hfin, if_neg hfin]
    simp

theorem downloadItem_phase (r : BatchRecord) (j : ItemJob)
    (h : BatchPhase r) : BatchPhase (downloadItem r j).1 := by
  obtain ⟨hc, ht⟩ := downloadItem_counters r j
  obtain ⟨hs, hd⟩ := downloadItem_status r j
  rcases h with ⟨h1, h2, h3⟩ | ⟨h1, h2, h3⟩
  · by_cases hfin : r.total ≤ r.completed + r.failed + 1
    · right
      refine ⟨by simp [hs, hfin], by simp [hd, hfin], by omega⟩
    · left
      refine ⟨by simp [hs, hfin, h1], by simp [hd, hfin, h2], by omega⟩
  · right
    have hfin : r.total ≤ r.completed + r.failed + 1 := by omega
    refine ⟨by simp [hs, hfin], by simp [hd, hfin], by omega⟩

theorem runBatchSteps_counters_phase (jobs : List ItemJob) (r : BatchRecord)
    (h : BatchPhase r) :
    (runBatchSteps r jobs).completed + (runBatchSteps r jobs).failed
        = r.completed + r.failed + jobs.length ∧
    (runBatchSteps r jobs).total = r.total ∧
    BatchPhase (runBatchSteps r jobs) := by
  induction jobs generalizing r with
  | nil => simpa [runBatchSteps] using h
  | cons j rest ih =>
    obtain ⟨hc, ht⟩ := downloadItem_counters r j
    obtain ⟨ihc, iht, ihp⟩ := ih (downloadItem r j).1 (downloadItem_phase r j h)
    have e1 : runBatchSteps r (j :: rest) = runBatchSteps (downloadItem r j).1 rest := by
      simp [runBatchSteps]
    have hlen : (j :: rest).length = rest.length + 1 := by simp
    rw [e1]
    refine ⟨by omega, by omega, ihp⟩

/-- C7 (amended): for a batch of `n ≥ 1` items, after `k ≤ n` items have
been processed the counters satisfy `completed + failed = k`, and the batch
is `complete` (with its retention deletion scheduled) exactly when `k = n`
and `processing` (with no deletion scheduled) for every `k < n` — so the
status transitions to `complete` exactly once, at the item completion that
makes `completed + failed` reach `total`. -/
theorem batch_complete_exactly_once (n : Nat) (jobs : List ItemJob)
    (hlen : jobs.length = n) (hn : 1 ≤ n) (k : Nat) (hk : k ≤ n) :
    (runBatchSteps (addBatchRecord n) (jobs.take k)).completed
        + (runBatchSteps (addBatchRecord n) (jobs.take k)).failed = k ∧
    (runBatchSteps (addBatchRecord n) (jobs.take k)).status
        = (if k = n then "complete" else "processing") ∧
    (runBatchSteps (addBatchRecord n) (jobs.take k)).deleteScheduled
        = (if k = n then true else false) := by
  have hphase : BatchPhase (addBatchRecord n) := by
    left; refine ⟨rfl, rfl, ?_⟩; simp [addBatchRecord]; omega
  have htl : (jobs.take k).length = k := by
    rw [List.length_take]; omega
  obtain ⟨hc, ht, hp⟩ :=
    runBatchSteps_counters_phase (jobs.take k) (addBatchRecord n) hphase
  rw [htl] at hc
  have h0 : (addBatchRecord n).completed = 0 := rfl
  have h1 : (addBatchRecord n).failed = 0 := rfl
  have h2 : (addBatchRecord n).total = n := rfl
  have hc' : (runBatchSteps (addBatchRecord n) (jobs.take k)).completed
      + (runBatchSteps (addBatchRecord n) (jobs.take k)).failed = k := by
    omega
  have ht' : (runBatchSteps (addBatchRecord n) (jobs.take k)).total = n := by
    rw [ht, h2]
  refine ⟨hc', ?_, ?_⟩
  · rcases hp with ⟨h1, _, h3⟩ | ⟨h1, _, h3⟩
    · rw [h1, if_neg]; omega
    · rw [h1, if_pos]; omega
  · rcases hp with ⟨_, h2, h3⟩ | ⟨_, h2, h3⟩
    · rw [h2, if_neg]; omega
    · rw [h2, if_pos]; omega

/-- Witness for C7's amended theorem: a two-item batch (one success, one
failure) is `processing` after the first item and `complete` with its
deletion scheduled after the second. -/
theorem batch_complete_exactly_once_witness :
    (runBatchSteps (addBatchRecord 2)
        (List.take 2 [(⟨"a.mp4", true, false, some 5000, none⟩ : ItemJob),
          ⟨"b.mp4", true, false, none, none⟩])).completed
      + (runBatchSteps (addBatchRecord 2)
        (List.take 2 [(⟨"a.mp4", true, false, some 5000, none⟩ : ItemJob),
          ⟨"b.mp4", true, false, none, none⟩])).failed = 2 ∧
    (runBatchSteps (addBatchRecord 2)
        (List.take 2 [(⟨"a.mp4", true, false, some 5000, none⟩ : ItemJob),
          ⟨"b.mp4", true, false, none, none⟩])).status
      = (if 2 = 2 then "complete" else "processing") ∧
    (runBatchSteps (addBatchRecord 2)
        (List.take 2 [(⟨"a.mp4", true, false, some 5000, none⟩ : ItemJob),
          ⟨"b.mp4", true, false, none, none⟩])).deleteScheduled
      = (if 2 = 2 then true else false) :=
  batch_complete_exactly_once 2
    [⟨"a.mp4", true, false, some 5000, none⟩, ⟨"b.mp4", true, false, none, none⟩]
    rfl (by decide) 2 (by decide)

/-- Counterexample for C7 as stated: a batch submitted with zero items
already satisfies `completed + failed = total` at creation, yet its record
is created as `processing` with no deletion scheduled — and since
`checkJobComplete` is only invoked from `downloadItem` and the batch has no
items, nothing ever marks it `complete`. -/
theorem zero_item_batch_never_completes :
    (addBatchRecord 0).completed + (addBatchRecord 0).failed
        = (addBatchRecord 0).total ∧
    (addBatchRecord 0).status = "processing" ∧
    (addBatchRecord 0).status ≠ "complete" ∧
    (addBatchRecord 0).deleteScheduled = false := by
  refine ⟨rfl, rfl, ?_, rfl⟩
  intro h
  exact absurd h (by decide)

/-! ## `getStatus` totality (C10) -/

/-- The object `DownloadQueue.getStatus` returns for an unknown id,
`{ status: 'not_found' }`; the absent fields are modelled as zeroed. -/
def notFoundRecord : BatchRecord := ⟨"not_found", 0, 0, 0, [], false⟩

/-- `DownloadQueue.getStatus`: `this.results.get(jobId) || { status: 'not_found' }`,
with the `results` map modelled as an association list. -/
def getStatus (results : List (String × BatchRecord)) (jobId : String) :
    BatchRecord :=
  match results.lookup jobId with
  | some r => r
  | none => notFoundRecord

/-- C10: for any id with no entry in `results` — never issued by `addBatch`,
or already purged by the post-completion retention deletion — `getStatus`
returns the `not_found` record (it is total: no lookup failure escapes). -/
theorem getStatus_unknown_not_found (results : List (String × BatchRecord))
    (jobId : String) (h : results.lookup jobId = none) :
    getStatus results jobId = notFoundRecord ∧
    (getStatus results jobId).status = "not_found" := by
  simp [getStatus, h, notFoundRecord]

/-- Witness for C10: an id that was never issued, against an empty `results`
map and against a map holding an unrelated batch. -/
theorem getStatus_unknown_not_found_witness :
    getStatus [("job_1_1700000000000", addBatchRecord 3)] "job_999_0" = notFoundRecord ∧
    (getStatus [("job_1_1700000000000", addBatchRecord 3)] "job_999_0").status
        = "not_found" :=
  getStatus_unknown_not_found [("job_1_1700000000000", addBatchRecord 3)]
    "job_999_0" (by decide)

/-! ## Page diagnostics: `ErrorRecovery.analyzePage` (`server.js`) -/

/-- JavaScript `String.prototype.includes`: substring containment. -/
def includes (s pat : String) : Bool :=
  (List.range (s.length + 1)).any (fun i => pat.toList.isPrefixOf (s.toList.drop i))

/-- `KNOWN_PATTERNS_VERSION` from `server.js`. -/
def KNOWN_PATTERNS_VERSION : String := "2025-12-20"

/-- `STRUCTURE_SIGNATURES.warningPatterns`. -/
def warningPatterns : List String :=
  ["Couldn\x27t find this account",
   "This account is private",
   "Video is unavailable",
   "This video is currently unavailable",
   "Video removed",
   "Content not available"]

/-- `STRUCTURE_SIGNATURES.postElements`. -/
def postElements : List String :=
  ["__UNIVERSAL_DATA_FOR_REHYDRATION__",
   "\"ItemModule\"",
   "\"videoData\"",
   "sigi.state",
   "\"webapp.video-detail\""]

/-- `STRUCTURE_SIGNATURES.mediaElements`. -/
def mediaElements : List String :=
  ["\"playAddr\"",
   "\"downloadAddr\"",
   "\"UrlList\"",
   "\"video_versions\"",
   "\"bitrateInfo\""]

/-- The diagnostic report built by `ErrorRecovery.analyzePage`.  The wall
clock `timestamp` field is omitted (pure model). -/
structure Diagnostic where
  url : String
  patternsVersion : String
  issues : List String
  suggestions : List String
  structureValid : Bool
deriving Repr, DecidableEq

/-- `analyzePage`, first check: blocking/unavailable messages. -/
def checkWarnings (html : String) (d : Diagnostic) : Diagnostic :=
  warningPatterns.foldl (fun d w =>
    if includes html w then
      { d with issues := d.issues ++ ["Content unavailable: \"" ++ w ++ "\""],
               suggestions := d.suggestions
                 ++ ["Video may be private, removed, or region-restricted"],
               structureValid := false }
    else d) d

/-- `analyzePage`, second check: post structure elements. -/
def checkPostElements (html : String) (d : Diagnostic) : Diagnostic :=
  let foundPostElements := postElements.filter (fun el => includes html el)
  if foundPostElements.length = 0 then
    { d with issues := d.issues ++ ["No post structure elements found"],
             suggestions := d.suggestions
               ++ ["TikTok may have changed page structure"],
             structureValid := false }
  else if foundPostElements.length < 2 then
    { d with issues := d.issues ++ ["Only " ++ toString foundPostElements.length
               ++ " post elements found (expected 2+)"],
             suggestions := d.suggestions ++ ["Page may not have fully loaded"] }
  else d

/-- `analyzePage`, third check: media URL patterns. -/
def checkMediaElements (html : String) (d : Diagnostic) : Diagnostic :=
  let foundMediaElements := mediaElements.filter (fun el => includes html el)
  if foundMediaElements.length = 0 then
    { d with issues := d.issues ++ ["No media URL patterns found in page"],
             suggestions := d.suggestions
               ++ ["Video may be private or media patterns changed"] }
  else d

/-- `analyzePage`, fourth check: page length (very short page = likely
blocked). -/
def checkPageLength (html : String) (d : Diagnostic) : Diagnostic :=
  if html.length < 5000 then
    { d with issues := d.issues ++ ["Page unusually short ("
               ++ toString html.length ++ " chars)"],
             suggestions := d.suggestions ++ ["May be blocked or rate limited"],
             structureValid := false }
  else d

/-- `analyzePage`, fifth check: captcha/verification markers. -/
def checkCaptcha (html : String) (d : Diagnostic) : Diagnostic :=
  if includes html "captcha" || includes html "verify"
      || includes html "Verify to continue" then
    { d with issues := d.issues ++ ["Captcha or verification required"],
             suggestions := d.suggestions ++ ["TikTok requires human verification"],
             structureValid := false }
  else d

/-- `ErrorRecovery.analyzePage`: starts from a valid diagnostic and runs,
in order, the unavailability check, the post-structure-element check, the
media-element check, the minimum-length check (`html.length < 5000`), and
the captcha/verification check. -/
def analyzePage (html url : String) : Diagnostic :=
  checkCaptcha html (checkPageLength html (checkMediaElements html
    (checkPostElements html (checkWarnings html
      ⟨url, KNOWN_PATTERNS_VERSION, [], [], true⟩))))

theorem checkPageLength_short (html : String) (d : Diagnostic)
    (h : html.length < 5000) :
    (checkPageLength html d).structureValid = false := by
  simp [checkPageLength, h]

theorem checkCaptcha_preserves_invalid (html : String) (d : Diagnostic)
    (h : d.structureValid = false) :
    (checkCaptcha html d).structureValid = false := by
  simp only [checkCaptcha]
  split
  · rfl
  · exact h

/-- C9: any payload shorter than the 5000-character minimum is classified
as structurally invalid by `analyzePage`, regardless of which anchors it
contains. -/
theorem analyzePage_short_invalid (html url : String)
    (h : html.length < 5000) :
    (analyzePage html url).structureValid = false :=
  checkCaptcha_preserves_invalid html _ (checkPageLength_short html _ h)

/-- Witness for C9 at a short concrete payload. -/
theorem analyzePage_short_invalid_witness :
    (analyzePage "<html></html>" "https://www.tiktok.com/@user/video/1").structureValid
      = false :=
  analyzePage_short_invalid "<html></html>" "https://www.tiktok.com/@user/video/1"
    (by decide)

/-! ## Browser manager: launch coalescing (`browser-manager.js`, C3) -/

/-- The launch-relevant state of `BrowserManager`.  `browser = some g`
models a non-null, connected browser of generation `g`; a null or
disconnected browser is `none` (both take the same path in `getBrowser`).
`launchPromise = some p` models a pending launch promise with identity
`p`. -/
structure BrowserManagerState where
  browser : Option Nat
  isLaunching : Bool
  launchPromise : Option Nat
deriving Repr, DecidableEq

/-- What the synchronous prefix of `BrowserManager.getBrowser` (the code up
to its first `await`) does for the caller. -/
inductive GetBrowserOutcome where
  | reuse (b : Nat)
  | awaitExisting (p : Nat)
  | newLaunch (p : Nat)
deriving Repr, DecidableEq

/-- The synchronous prefix of `getBrowser`: return the connected browser if
there is one; else, if `isLaunching && launchPromise`, return that pending
promise unchanged; else set `isLaunching` and install a fresh launch
promise. -/
def getBrowserStart (s : BrowserManagerState) (fresh : Nat) :
    GetBrowserOutcome × BrowserManagerState :=
  match s.browser with
  | some b => (GetBrowserOutcome.reuse b, s)
  | none =>
    match s.isLaunching, s.launchPromise with
    | true, some p => (GetBrowserOutcome.awaitExisting p, s)
    | _, _ =>
      (GetBrowserOutcome.newLaunch fresh,
        { s with isLaunching := true, launchPromise := some fresh })

/-- The continuation of `getBrowser` after the launch promise resolves with
browser `b`: store the browser, reset `requestCount` (not modelled here),
and in the `finally` clear `isLaunching` and `launchPromise`. -/
def launchFinish (s : BrowserManagerState) (b : Nat) : BrowserManagerState :=
  match s.launchPromise with
  | some _ => ⟨some b, false, none⟩
  | none => s

/-- The browser manager plus a ghost count of launches currently in
flight and a fresh-identity counter. -/
structure LaunchSystem where
  bm : BrowserManagerState
  inFlight : Nat
  nextId : Nat
deriving Repr, DecidableEq

/-- Asynchronous events against the browser manager: a `getBrowser` call,
the resolution of the pending launch, and a browser disconnect/crash. -/
inductive BMEvent where
  | call
  | finishLaunch (b : Nat)
  | disconnect
deriving Repr, DecidableEq

/-- Whether a `getBrowserStart` outcome started a new launch. -/
def startsLaunch : GetBrowserOutcome → Bool
  | GetBrowserOutcome.newLaunch _ => true
  | _ => false

/-- One step of the launch system. -/
def bmStep (σ : LaunchSystem) : BMEvent → LaunchSystem
  | BMEvent.call =>
    let r := getBrowserStart σ.bm σ.nextId
    ⟨r.2, if startsLaunch r.1 then σ.inFlight + 1 else σ.inFlight, σ.nextId + 1⟩
  | BMEvent.finishLaunch b =>
    if σ.bm.launchPromise.isSome then ⟨launchFinish σ.bm b, σ.inFlight - 1, σ.nextId⟩
    else σ
  | BMEvent.disconnect => ⟨{ σ.bm with browser := none }, σ.inFlight, σ.nextId⟩

/-- Fresh-process state: no browser, nothing launching. -/
def bmInit : LaunchSystem := ⟨⟨none, false, none⟩, 0, 0⟩

/-- Run the launch system over an event timeline. -/
def bmRun (evs : List BMEvent) : LaunchSystem :=
  evs.foldl bmStep bmInit

/-- The launch-coalescing invariant: the in-flight launch count matches the
`isLaunching` flag, which matches the presence of a launch promise. -/
def LaunchInv (σ : LaunchSystem) : Prop :=
  σ.inFlight = (if σ.bm.isLaunching then 1 else 0) ∧
  σ.bm.isLaunching = σ.bm.launchPromise.isSome

theorem bmStep_inv (σ : LaunchSystem) (e : BMEvent) (h : LaunchInv σ) :
    LaunchInv (bmStep σ e) := by
  obtain ⟨⟨br, il, lp⟩, fl, nid⟩ := σ
  obtain ⟨h1, h2⟩ := h
  simp only [LaunchInv] at h1 h2 ⊢
  cases e with
  | call =>
    cases br with
    | some b => simp_all [bmStep, getBrowserStart, startsLaunch]
    | none =>
      cases il <;> cases lp <;>
        simp_all [bmStep, getBrowserStart, startsLaunch]
  | finishLaunch b =>
    cases lp <;> simp_all [bmStep, launchFinish]
  | disconnect => simp_all [bmStep]

theorem bmRun_inv (evs : List BMEvent) : LaunchInv (bmRun evs) := by
  suffices h : ∀ σ, LaunchInv σ → LaunchInv (evs.foldl bmStep σ) by
    exact h bmInit ⟨rfl, rfl⟩
  induction evs with
  | nil => intro σ hσ; exact hσ
  | cons e rest ih => intro σ hσ; exact ih (bmStep σ e) (bmStep_inv σ e hσ)

/-- C3: a `getBrowser` call made while a launch is in flight (no connected
browser, `isLaunching` set, `launchPromise` pending) returns that same
pending promise and leaves the state unchanged — it starts no second
launch; consequently, over any event timeline, at most one engine launch is
ever in flight. -/
theorem getBrowser_launches_coalesce (s : BrowserManagerState) (p fresh : Nat)
    (hb : s.browser = none) (hl : s.isLaunching = true)
    (hp : s.launchPromise = some p) :
    getBrowserStart s fresh = (GetBrowserOutcome.awaitExisting p, s) ∧
    ∀ evs : List BMEvent, (bmRun evs).inFlight ≤ 1 := by
  constructor
  · simp [getBrowserStart, hb, hl, hp]
  · intro evs
    obtain ⟨h1, _⟩ := bmRun_inv evs
    rw [h1]
    split <;> decide

/-- Witness for C3: a cold-start state with launch `7` pending; a second
caller joins launch `7` and changes nothing. -/
theorem getBrowser_launches_coalesce_witness :
    getBrowserStart ⟨none, true, some 7⟩ 9
        = (GetBrowserOutcome.awaitExisting 7, ⟨none, true, some 7⟩) ∧
    ∀ evs : List BMEvent, (bmRun evs).inFlight ≤ 1 :=
  getBrowser_launches_coalesce ⟨none, true, some 7⟩ 7 9 rfl rfl rfl

/-! ## Browser manager: page pool and request-count recycling
(`browser-manager.js`, C4 and C5) -/

/-- `MAX_PAGES = 5` from `browser-manager.js`. -/
def MAX_PAGES : Nat := 5

/-- `MAX_REQUESTS = 50` from `browser-manager.js`. -/
def MAX_REQUESTS : Nat := 50

/-- Timed pool state of `BrowserManager`.  `pages` lists the open pages of
the live browser in creation order; its head is the initial blank page a
fresh browser starts with (the "primary" handle `browser.pages()` reports
first).  `closeTimerAt` is the absolute fire time of a pending
`setTimeout(() => this.closeBrowser(), 1000)`.  `generation` counts
launches. -/
structure PoolState where
  live : Bool
  generation : Nat
  requestCount : Nat
  pages : List Nat
  closeTimerAt : Option Int
  nextPageId : Nat
deriving Repr, DecidableEq

/-- Fresh-process pool state: no browser yet. -/
def poolInit : PoolState := ⟨false, 0, 0, [], none, 0⟩

/-- The effect of `getBrowser` inside `getPage`: reuse the connected
browser, else launch a new generation (which arrives with its single blank
page and, per `getBrowser`, a reset `requestCount`). -/
def ensureBrowser (s : PoolState) : PoolState :=
  if s.live then s
  else { s with
    live := true,
    generation := s.generation + 1,
    requestCount := 0,
    pages := [s.nextPageId],
    nextPageId := s.nextPageId + 1 }

/-- `BrowserManager.getPage` at time `t` (ms): obtain the browser,
increment `requestCount` and — once it reaches `MAX_REQUESTS` — schedule
`closeBrowser` to run 1000 ms later; then, if `browser.pages()` already
holds `MAX_PAGES` pages, close `pages[1]` (the oldest non-primary page);
finally open and return the new page. -/
def getPage (s : PoolState) (t : Int) : PoolState × Nat :=
  let s := ensureBrowser s
  let s := { s with requestCount := s.requestCount + 1 }
  let s :=
    if MAX_REQUESTS ≤ s.requestCount then { s with closeTimerAt := some (t + 1000) }
    else s
  let s :=
    if MAX_PAGES ≤ s.pages.length then { s with pages := s.pages.eraseIdx 1 }
    else s
  ({ s with pages := s.pages ++ [s.nextPageId], nextPageId := s.nextPageId + 1 },
    s.nextPageId)

/-- `BrowserManager.releasePage`: closes only the per-operation page (and
refreshes `lastUsed`/the idle timer, which this model does not track).  It
touches neither the engine, the request counter, nor the scheduled close. -/
def releasePage (s : PoolState) (p : Nat) : PoolState :=
  { s with pages := s.pages.erase p }

/-- `BrowserManager.closeBrowser`: close the engine (destroying all of its
pages) and reset `requestCount`. -/
def closeBrowser (s : PoolState) : PoolState :=
  { s with live := false, pages := [], requestCount := 0, closeTimerAt := none }

/-- The scheduled `setTimeout(() => this.closeBrowser(), 1000)` firing:
it runs `closeBrowser` unconditionally — whether or not the lease that
scheduled it has been released. -/
def fireCloseTimer (s : PoolState) : PoolState :=
  if s.closeTimerAt.isSome then closeBrowser s else s

/-- Pool events: a lease (`getPage`) at some time, a release, and the
pending close timer firing. -/
inductive PoolEvent where
  | lease (t : Int)
  | release (p : Nat)
  | fire
deriving Repr, DecidableEq

/-- One pool step. -/
def poolStep (s : PoolState) : PoolEvent → PoolState
  | PoolEvent.lease t => (getPage s t).1
  | PoolEvent.release p => releasePage s p
  | PoolEvent.fire => fireCloseTimer s

/-- Run the pool over an event timeline. -/
def poolRun (evs : List PoolEvent) : PoolState :=
  evs.foldl poolStep poolInit

theorem ensureBrowser_live (s : PoolState) : (ensureBrowser s).live = true := by
  simp only [ensureBrowser]
  split
  · next h => exact h
  · rfl

theorem getPage_proj (s : PoolState) (t : Int) :
    (getPage s t).1 =
      { live := true,
        generation := (ensureBrowser s).generation,
        requestCount := (ensureBrowser s).requestCount + 1,
        pages := (if MAX_PAGES ≤ (ensureBrowser s).pages.length
            then (ensureBrowser s).pages.eraseIdx 1
            else (ensureBrowser s).pages) ++ [(ensureBrowser s).nextPageId],
        closeTimerAt := if MAX_REQUESTS ≤ (ensureBrowser s).requestCount + 1
            then some (t + 1000) else (ensureBrowser s).closeTimerAt,
        nextPageId := (ensureBrowser s).nextPageId + 1 } := by
  simp only [getPage]
  by_cases h1 : MAX_REQUESTS ≤ (ensureBrowser s).requestCount + 1 <;>
    by_cases h2 : MAX_PAGES ≤ (ensureBrowser s).pages.length <;>
      simp [h1, h2, ensureBrowser_live]

theorem getPage_pages_le (s : PoolState) (t : Int)
    (h : s.pages.length ≤ MAX_PAGES) :
    ((getPage s t).1).pages.length ≤ MAX_PAGES := by
  rw [getPage_proj]
  have hp : (ensureBrowser s).pages.length ≤ MAX_PAGES := by
    simp only [ensureBrowser]
    split
    · exact h
    · simp [MAX_PAGES]
  show ((if MAX_PAGES ≤ (ensureBrowser s).pages.length
      then (ensureBrowser s).pages.eraseIdx 1
      else (ensureBrowser s).pages) ++ [(ensureBrowser s).nextPageId]).length
    ≤ MAX_PAGES
  rw [List.length_append]
  simp only [MAX_PAGES, List.length_cons, List.length_nil] at hp ⊢
  by_cases h2 : 5 ≤ (ensureBrowser s).pages.length
  · rw [if_pos h2]
    have h3 : ((ensureBrowser s).pages.eraseIdx 1).length
        = (ensureBrowser s).pages.length - 1 := by
      rw [List.length_eraseIdx]
      rw [if_pos (by omega)]
    omega
  · rw [if_neg h2]
    omega

theorem poolStep_pages_le (s : PoolState) (e : PoolEvent)
    (h : s.pages.length ≤ MAX_PAGES) :
    (poolStep s e).pages.length ≤ MAX_PAGES := by
  cases e with
  | lease t => exact getPage_pages_le s t h
  | release p =>
    simp only [poolStep, releasePage]
    calc (s.pages.erase p).length ≤ s.pages.length := List.length_erase_le _ _
    _ ≤ MAX_PAGES := h
  | fire =>
    simp only [poolStep, fireCloseTimer]
    split
    · simp [closeBrowser, MAX_PAGES]
    · exact h

/-! ### Overlapping `getPage` calls (C5)

The real `getPage` body suspends at `await browser.pages()`,
`await oldestPage.close()` and `await browser.newPage()`; its page-cap
enforcement is a check-then-act with no lock.  Calls genuinely overlap in
this program (`tryPuppeteerDownload` is not admission-gated and up to
`MAX_CONCURRENT` run at once, besides long-held scrape pages), so the cap
phases of one call interleave with those of another.  The model below
splits the body of one in-flight call at those suspension points; the
shared state is the live browser's page list. -/

/-- The shared page-list state seen by overlapping `getPage` calls. -/
structure ConcPool where
  pages : List Nat
  nextPageId : Nat
deriving Repr, DecidableEq

/-- Where one in-flight `getPage` call stands, between its `await`s:
about to run the cap check; holding the snapshot's eviction victim
(`pages[1]` of the list it saw, if that list was full); about to open its
page; or returned with its handle. -/
inductive CallPhase where
  | start
  | toClose (victim : Option Nat)
  | toOpen
  | done (p : Nat)
deriving Repr, DecidableEq

/-- Advance one in-flight `getPage` call by one phase.  The cap check
snapshots the current list (`await browser.pages()`) and picks `pages[1]`
as the victim when full; the close phase closes the victim — a no-op if
another call already closed that same page (the `try/catch` swallows the
error); the open phase runs `browser.newPage()`. -/
def callStep (s : ConcPool) : CallPhase → ConcPool × CallPhase
  | CallPhase.start =>
    (s, CallPhase.toClose
      (if MAX_PAGES ≤ s.pages.length then s.pages[1]? else none))
  | CallPhase.toClose victim =>
    ({ s with pages :=
        match victim with
        | some p => s.pages.erase p
        | none => s.pages }, CallPhase.toOpen)
  | CallPhase.toOpen =>
    ({ s with pages := s.pages ++ [s.nextPageId], nextPageId := s.nextPageId + 1 },
      CallPhase.done s.nextPageId)
  | CallPhase.done p => (s, CallPhase.done p)

/-- Interleaved scheduler: each event advances the `i`-th in-flight call
by one phase. -/
def concStep (σ : ConcPool × List CallPhase) (i : Nat) : ConcPool × List CallPhase :=
  match σ.2[i]? with
  | some ph =>
    let r := callStep σ.1 ph
    (r.1, σ.2.set i r.2)
  | none => σ

/-- Run an interleaving of the in-flight calls. -/
def concRun (σ : ConcPool × List CallPhase) (evs : List Nat) :
    ConcPool × List CallPhase :=
  evs.foldl concStep σ

/-- Counterexample for C5 as stated: from a full pool (primary page `0`
plus four leased pages), three overlapping `getPage` calls that all pass
the cap check before any of them closes or opens (the check and the
`newPage` are separated by `await`s with no mutual exclusion) all pick the
same victim `pages[1] = 1`; only the first close takes effect, the other
two are swallowed no-ops, and after the three `newPage`s the pool holds 7
open pages — 6 concurrently leased non-primary handles, exceeding
`MaxSessions = 5`. -/
theorem concurrent_getPage_exceeds_cap :
    (concRun (⟨[0, 1, 2, 3, 4], 5⟩,
        [CallPhase.start, CallPhase.start, CallPhase.start])
      [0, 1, 2, 0, 0, 1, 1, 2, 2]).1.pages
      = [0, 2, 3, 4, 5, 6, 7] ∧
    MAX_PAGES <
      (concRun (⟨[0, 1, 2, 3, 4], 5⟩,
          [CallPhase.start, CallPhase.start, CallPhase.start])
        [0, 1, 2, 0, 0, 1, 1, 2, 2]).1.pages.length - 1 := by
  decide

/-- C5 (amended): when `getPage` calls do not overlap — each call's cap
check, eviction and `newPage` complete before the next call starts, as in
`poolRun`'s serialized lease events — the number of open pages never
exceeds `MAX_PAGES = 5`, so the concurrently leased non-primary handles
stay within the cap; and every `getPage` call that finds the page list
full (including each 50th call, which also schedules the recycle) closes
`pages[1]`, the oldest non-primary page, before opening the new handle.
Overlapping calls can exceed the cap, as `concurrent_getPage_exceeds_cap`
shows. -/
theorem pool_sessions_capped_serial :
    (∀ evs : List PoolEvent, (poolRun evs).pages.length ≤ MAX_PAGES) ∧
    (∀ s : PoolState, ∀ t : Int, s.live = true → MAX_PAGES ≤ s.pages.length →
      ((getPage s t).1).pages = s.pages.eraseIdx 1 ++ [s.nextPageId]) := by
  constructor
  · intro evs
    suffices h : ∀ s : PoolState, s.pages.length ≤ MAX_PAGES →
        (evs.foldl poolStep s).pages.length ≤ MAX_PAGES by
      exact h poolInit (by simp [poolInit, MAX_PAGES])
    induction evs with
    | nil => intro s hs; exact hs
    | cons e rest ih => intro s hs; exact ih (poolStep s e) (poolStep_pages_le s e hs)
  · intro s t hlive hfull
    have hens : ensureBrowser s = s := by
      simp [ensureBrowser, hlive]
    rw [getPage_proj]
    simp [hens, hfull]

/-- Witness for C5's amended theorem: a serial timeline stays within the
cap, and a full live pool mid-way through its 50th lease
(`requestCount = 49`) still evicts page `1`, the oldest non-primary. -/
theorem pool_sessions_capped_serial_witness :
    (poolRun [PoolEvent.lease 0, PoolEvent.lease 10, PoolEvent.release 1]).pages.length
        ≤ MAX_PAGES ∧
    ((getPage ⟨true, 1, 49, [0, 1, 2, 3, 4], none, 5⟩ 0).1).pages
        = ([0, 1, 2, 3, 4] : List Nat).eraseIdx 1 ++ [5] :=
  ⟨pool_sessions_capped_serial.1 [PoolEvent.lease 0, PoolEvent.lease 10, PoolEvent.release 1],
   pool_sessions_capped_serial.2 ⟨true, 1, 49, [0, 1, 2, 3, 4], none, 5⟩ 0 rfl
     (by decide)⟩

/-- Counterexample for C4 as stated: drive one browser generation through
49 leases, then take the 50th lease at `t = 100` and never release it.
The 50th `getPage` itself schedules the close for `t = 1100`; when that
timer fires the engine is closed even though the 50th lease is still open
(a mid-operation kill, not a wait for the lease to complete), and a
`releasePage` of the leased handle changes neither the engine, the
scheduled close, nor the request counter — so it is the 50th `getPage`'s
timer, not "the next release", that triggers the recycle. -/
theorem recycle_timer_fires_mid_lease :
    (getPage (poolRun (List.replicate 49 (PoolEvent.lease 0))) 100).1.closeTimerAt
        = some 1100 ∧
    (getPage (poolRun (List.replicate 49 (PoolEvent.lease 0))) 100).1.requestCount
        = 50 ∧
    (getPage (poolRun (List.replicate 49 (PoolEvent.lease 0))) 100).2
        ∈ (getPage (poolRun (List.replicate 49 (PoolEvent.lease 0))) 100).1.pages ∧
    (fireCloseTimer (getPage (poolRun (List.replicate 49 (PoolEvent.lease 0))) 100).1).live
        = false ∧
    (fireCloseTimer (getPage (poolRun (List.replicate 49 (PoolEvent.lease 0))) 100).1).pages
        = [] ∧
    (releasePage (getPage (poolRun (List.replicate 49 (PoolEvent.lease 0))) 100).1
        (getPage (poolRun (List.replicate 49 (PoolEvent.lease 0))) 100).2).closeTimerAt
        = some 1100 ∧
    (releasePage (getPage (poolRun (List.replicate 49 (PoolEvent.lease 0))) 100).1
        (getPage (poolRun (List.replicate 49 (PoolEvent.lease 0))) 100).2).live
        = true ∧
    (releasePage (getPage (poolRun (List.replicate 49 (PoolEvent.lease 0))) 100).1
        (getPage (poolRun (List.replicate 49 (PoolEvent.lease 0))) 100).2).requestCount
        = 50 := by
  set_option maxRecDepth 20000 in decide

/-- C4 (amended): once a live browser has served 49 leases, the 50th
`getPage` schedules `closeBrowser` for 1000 ms later; when that timer
fires, the engine is closed with `requestCount` reset to 0 regardless of
whether the current lease completed, and the next `getPage` launches and
serves from a new engine generation with the counter restarted at 1. -/
theorem pool_recycle_after_max_requests (s : PoolState) (t u : Int)
    (hlive : s.live = true) (hcount : s.requestCount = 49) :
    (getPage s t).1.closeTimerAt = some (t + 1000) ∧
    (getPage s t).1.requestCount = 50 ∧
    fireCloseTimer (getPage s t).1 = closeBrowser (getPage s t).1 ∧
    (fireCloseTimer (getPage s t).1).requestCount = 0 ∧
    (getPage (fireCloseTimer (getPage s t).1) u).1.generation = s.generation + 1 ∧
    (getPage (fireCloseTimer (getPage s t).1) u).1.requestCount = 1 := by
  have hens : ensureBrowser s = s := by
    simp [ensureBrowser, hlive]
  have h1 : (getPage s t).1.closeTimerAt = some (t + 1000) := by
    rw [getPage_proj]
    simp [hens, hcount, MAX_REQUESTS]
  have h2 : (getPage s t).1.requestCount = 50 := by
    rw [getPage_proj]
    simp [hens, hcount]
  have h3 : fireCloseTimer (getPage s t).1 = closeBrowser (getPage s t).1 := by
    simp [fireCloseTimer, h1]
  have hgen : (getPage s t).1.generation = s.generation := by
    rw [getPage_proj]
    simp [hens]
  refine ⟨h1, h2, h3, ?_, ?_, ?_⟩
  · rw [h3]; rfl
  · rw [h3, getPage_proj]
    simp [ensureBrowser, closeBrowser, hgen]
  · rw [h3, getPage_proj]
    simp [ensureBrowser, closeBrowser]

/-- Witness for C4's amended theorem on a concrete 49-lease state. -/
theorem pool_recycle_after_max_requests_witness :
    (getPage ⟨true, 1, 49, [0, 48], none, 49⟩ 100).1.closeTimerAt = some (100 + 1000) ∧
    (getPage ⟨true, 1, 49, [0, 48], none, 49⟩ 100).1.requestCount = 50 ∧
    fireCloseTimer (getPage ⟨true, 1, 49, [0, 48], none, 49⟩ 100).1
        = closeBrowser (getPage ⟨true, 1, 49, [0, 48], none, 49⟩ 100).1 ∧
    (fireCloseTimer (getPage ⟨true, 1, 49, [0, 48], none, 49⟩ 100).1).requestCount = 0 ∧
    (getPage (fireCloseTimer (getPage ⟨true, 1, 49, [0, 48], none, 49⟩ 100).1) 5000).1.generation
        = 1 + 1 ∧
    (getPage (fireCloseTimer (getPage ⟨true, 1, 49, [0, 48], none, 49⟩ 100).1) 5000).1.requestCount
        = 1 :=
  pool_recycle_after_max_requests ⟨true, 1, 49, [0, 48], none, 49⟩ 100 5000 rfl rfl

/-! ## Rate limiter (`RateLimiter.waitForSlot`, C1 and C2)

`waitForSlot` is a sequential async method; its `await this.sleep(ms)`
suspensions advance the clock by exactly `ms`.  The embedding threads the
current `Date.now()` value (`now : Int`) through the method's four
statements, each of which becomes one function below. -/

/-- `MIN_DELAY_MS = 2000`. -/
def MIN_DELAY_MS : Int := 2000

/-- `MAX_REQUESTS_PER_MINUTE = 15`. -/
def MAX_REQUESTS_PER_MINUTE : Nat := 15

/-- `BURST_COOLDOWN_MS = 60000`. -/
def BURST_COOLDOWN_MS : Int := 60000

/-- The `RateLimiter` instance fields. -/
structure RateLimiter where
  lastRequestTime : Int
  requestTimestamps : List Int
  isThrottled : Bool
  throttleUntil : Int
deriving Repr, DecidableEq

/-- The constructor's initial state. -/
def RateLimiter.init : RateLimiter := ⟨0, [], false, 0⟩

/-- `waitForSlot`, statement 1: if a cooldown is active, sleep until
`throttleUntil` and clear `isThrottled`.  Returns the state and the clock
after the statement. -/
def afterCooldown (s : RateLimiter) (now : Int) : RateLimiter × Int :=
  if s.isThrottled && decide (now < s.throttleUntil) then
    ({ s with isThrottled := false }, s.throttleUntil)
  else (s, now)

/-- `waitForSlot`, statement 2: drop window entries older than one
minute (`ts > oneMinuteAgo`). -/
def pruneWindow (s : RateLimiter) (now : Int) : RateLimiter :=
  { s with requestTimestamps :=
      s.requestTimestamps.filter (fun ts => decide (now - 60000 < ts)) }

/-- `waitForSlot`, statement 3: if the pruned window holds at least
`MAX_REQUESTS_PER_MINUTE` entries, set `throttleUntil`, sleep the full
`BURST_COOLDOWN_MS` (clearing `isThrottled` afterwards), and clear the
window. -/
def burstCheck (s : RateLimiter) (now : Int) : RateLimiter × Int :=
  if MAX_REQUESTS_PER_MINUTE ≤ s.requestTimestamps.length then
    ({ s with
        isThrottled := false,
        throttleUntil := now + BURST_COOLDOWN_MS,
        requestTimestamps := [] }, now + BURST_COOLDOWN_MS)
  else (s, now)

/-- `waitForSlot`, statement 4: if less than `MIN_DELAY_MS` has elapsed
since `lastRequestTime`, sleep the remainder.  Returns the clock after the
wait — the moment the slot is granted. -/
def minDelayWait (s : RateLimiter) (now : Int) : Int :=
  if now - s.lastRequestTime < MIN_DELAY_MS then
    now + (MIN_DELAY_MS - (now - s.lastRequestTime))
  else now

/-- `RateLimiter.waitForSlot`, assembled: cooldown wait, prune, burst
check, minimum-delay wait, then record the grant into `lastRequestTime`
and push it onto `requestTimestamps`.  Returns the new state and the grant
time (= the clock when the call resolves). -/
def waitForSlot (s : RateLimiter) (now : Int) : RateLimiter × Int :=
  let c := afterCooldown s now
  let s1 := pruneWindow c.1 c.2
  let b := burstCheck s1 c.2
  let g := minDelayWait b.1 b.2
  ({ b.1 with
      lastRequestTime := g,
      requestTimestamps := b.1.requestTimestamps ++ [g] }, g)

/-- A sequence of sequential `waitForSlot` calls: the `k`-th call starts
`ds[k] ≥ 0` ms after the previous call resolved.  Returns the final state,
the final clock, and the list of grant times. -/
def runCalls (s : RateLimiter) (now : Int) : List Int → RateLimiter × Int × List Int
  | [] => (s, now, [])
  | d :: ds =>
    let r := waitForSlot s (now + d)
    let rest := runCalls r.1 r.2 ds
    (rest.1, rest.2.1, r.2 :: rest.2.2)

/-- Grants spaced by at least `MIN_DELAY_MS`. -/
def spaced (l : List Int) : Prop :=
  l.Chain' (fun a b => a + MIN_DELAY_MS ≤ b)

/-- Membership of `g` in the rolling one-minute window ending at `t`
(the window the code itself uses: `ts > t - 60000`, `ts ≤ t`). -/
def inWindow (t g : Int) : Bool :=
  decide (t - 60000 < g) && decide (g ≤ t)

/-- Number of grants inside the rolling window ending at `t`. -/
def windowCount (l : List Int) (t : Int) : Nat :=
  (l.filter (inWindow t)).length

theorem afterCooldown_last (s : RateLimiter) (now : Int) :
    (afterCooldown s now).1.lastRequestTime = s.lastRequestTime := by
  simp only [afterCooldown]; split <;> rfl

theorem afterCooldown_ts (s : RateLimiter) (now : Int) :
    (afterCooldown s now).1.requestTimestamps = s.requestTimestamps := by
  simp only [afterCooldown]; split <;> rfl

theorem afterCooldown_le (s : RateLimiter) (now : Int) :
    now ≤ (afterCooldown s now).2 := by
  simp only [afterCooldown]
  split
  · next h =>
    simp only [Bool.and_eq_true, decide_eq_true_eq] at h
    exact le_of_lt h.2
  · exact le_refl now

theorem burstCheck_last (x : RateLimiter) (m : Int) :
    (burstCheck x m).1.lastRequestTime = x.lastRequestTime := by
  simp only [burstCheck]; split <;> rfl

theorem burstCheck_le (x : RateLimiter) (m : Int) : m ≤ (burstCheck x m).2 := by
  simp only [burstCheck]
  split
  · simp only [BURST_COOLDOWN_MS]; omega
  · exact le_refl m

theorem burstCheck_cases (x : RateLimiter) (m : Int) :
    ((burstCheck x m).1.requestTimestamps = [] ∧
      (burstCheck x m).2 = m + BURST_COOLDOWN_MS) ∨
    ((burstCheck x m).1.requestTimestamps = x.requestTimestamps ∧
      x.requestTimestamps.length + 1 ≤ MAX_REQUESTS_PER_MINUTE ∧
      (burstCheck x m).2 = m) := by
  simp only [burstCheck]
  split
  · exact Or.inl ⟨rfl, rfl⟩
  · next h =>
    refine Or.inr ⟨rfl, ?_, rfl⟩
    simp only [MAX_REQUESTS_PER_MINUTE] at h ⊢
    omega

theorem minDelayWait_le (x : RateLimiter) (m : Int) : m ≤ minDelayWait x m := by
  simp only [minDelayWait, MIN_DELAY_MS]
  split <;> omega

theorem minDelayWait_spacing (x : RateLimiter) (m : Int) :
    x.lastRequestTime + MIN_DELAY_MS ≤ minDelayWait x m := by
  simp only [minDelayWait, MIN_DELAY_MS]
  split <;> omega

theorem pruneWindow_last (x : RateLimiter) (m : Int) :
    (pruneWindow x m).lastRequestTime = x.lastRequestTime := rfl

theorem pruneWindow_ts (x : RateLimiter) (m : Int) :
    (pruneWindow x m).requestTimestamps
      = x.requestTimestamps.filter (fun ts => decide (m - 60000 < ts)) := rfl

theorem spaced_append_one (g : Int) (l : List Int) (hl : spaced l)
    (hg : ∀ x ∈ l, x + MIN_DELAY_MS ≤ g) : spaced (l ++ [g]) := by
  induction l with
  | nil => simp [spaced]
  | cons a t ih =>
    cases t with
    | nil =>
      simp only [spaced, List.cons_append, List.nil_append]
      rw [List.chain'_cons]
      exact ⟨hg a (by simp), List.chain'_singleton g⟩
    | cons b t2 =>
      rw [spaced, List.chain'_cons] at hl
      have ih2 := ih hl.2 (fun x hx => hg x (List.mem_cons_of_mem a hx))
      rw [spaced]
      simp only [List.cons_append]
      rw [List.chain'_cons]
      exact ⟨hl.1, ih2⟩

theorem spaced_pairwise (l : List Int) (h : spaced l) :
    l.Pairwise (fun a b => a < b) := by
  induction l with
  | nil => exact List.Pairwise.nil
  | cons a t ih =>
    rw [spaced, List.chain'_cons'] at h
    rw [List.pairwise_cons]
    have htp := ih h.2
    refine ⟨?_, htp⟩
    intro b hb
    cases t with
    | nil => cases hb
    | cons c t2 =>
      have hac : a + MIN_DELAY_MS ≤ c := h.1 c rfl
      have hstep : ∀ y ∈ c :: t2, c ≤ y := by
        intro y hy
        rcases List.mem_cons.mp hy with rfl | hy2
        · exact le_refl y
        · have := List.rel_of_pairwise_cons htp hy2
          omega
      have hcb : c ≤ b := hstep b hb
      simp only [MIN_DELAY_MS] at hac
      omega

theorem spaced_nodup (l : List Int) (h : spaced l) : l.Nodup :=
  (spaced_pairwise l h).imp (fun h => ne_of_lt h)

theorem nodup_subset_length {l l2 : List Int} (hn : l.Nodup)
    (hs : ∀ x ∈ l, x ∈ l2) : l.length ≤ l2.length := by
  calc l.length = l.toFinset.card := (List.toFinset_card_of_nodup hn).symm
  _ ≤ l2.toFinset.card := by
      apply Finset.card_le_card
      intro x hx
      rw [List.mem_toFinset] at hx ⊢
      exact hs x hx
  _ ≤ l2.length := l2.toFinset_card_le

/-- The inductive invariant tying the limiter state at clock `now` to the
list of grant times issued so far. -/
structure RLInv (s : RateLimiter) (now : Int) (grants : List Int) : Prop where
  spacedGrants : spaced grants
  grants_le_last : ∀ g ∈ grants, g ≤ s.lastRequestTime
  last_le_now : s.lastRequestTime ≤ now
  mem_ts : ∀ g ∈ grants, now - 60000 < g → g ∈ s.requestTimestamps
  ts_mem : ∀ ts ∈ s.requestTimestamps, ts ∈ grants
  ts_len : s.requestTimestamps.length ≤ MAX_REQUESTS_PER_MINUTE
  wc_grants : ∀ g ∈ grants, windowCount grants g ≤ MAX_REQUESTS_PER_MINUTE

theorem waitForSlot_step_aux (s : RateLimiter) (now n0 n1 : Int)
    (b : RateLimiter × Int) (g : Int) (grants : List Int)
    (inv : RLInv s now grants) (hn0 : now ≤ n0)
    (hn1 : n1 = (afterCooldown s n0).2)
    (hb : b = burstCheck (pruneWindow (afterCooldown s n0).1 n1) n1)
    (hg : g = minDelayWait b.1 b.2) :
    RLInv { b.1 with
        lastRequestTime := g,
        requestTimestamps := b.1.requestTimestamps ++ [g] } g (grants ++ [g]) := by
  have hA1 : n0 ≤ n1 := hn1 ▸ afterCooldown_le s n0
  have hblast : b.1.lastRequestTime = s.lastRequestTime := by
    rw [hb, burstCheck_last, pruneWindow_last, afterCooldown_last]
  have hn2 : n1 ≤ b.2 := hb ▸ burstCheck_le _ _
  have hgn2 : b.2 ≤ g := hg ▸ minDelayWait_le b.1 b.2
  have hspace : s.lastRequestTime + 2000 ≤ g := by
    have h := minDelayWait_spacing b.1 b.2
    rw [← hg, hblast] at h
    simpa [MIN_DELAY_MS] using h
  have hlnow : s.lastRequestTime ≤ now := inv.last_le_now
  have hlast_le_g : s.lastRequestTime ≤ g := by omega
  have hnow_g : now ≤ g := by omega
  have hpts : (pruneWindow (afterCooldown s n0).1 n1).requestTimestamps
      = s.requestTimestamps.filter (fun ts => decide (n1 - 60000 < ts)) := by
    rw [pruneWindow_ts, afterCooldown_ts]
  have hcases : (b.1.requestTimestamps = [] ∧ b.2 = n1 + BURST_COOLDOWN_MS) ∨
      (b.1.requestTimestamps
          = (pruneWindow (afterCooldown s n0).1 n1).requestTimestamps ∧
        (pruneWindow (afterCooldown s n0).1 n1).requestTimestamps.length + 1
          ≤ MAX_REQUESTS_PER_MINUTE ∧ b.2 = n1) := by
    rw [hb]
    exact burstCheck_cases _ _
  have hsp2 : spaced (grants ++ [g]) := by
    apply spaced_append_one g grants inv.spacedGrants
    intro x hx
    have hxl := inv.grants_le_last x hx
    have : x + 2000 ≤ g := by omega
    simpa [MIN_DELAY_MS] using this
  have hgle : ∀ x ∈ grants ++ [g], x ≤ g := by
    intro x hx
    rcases List.mem_append.mp hx with hx1 | hx2
    · have := inv.grants_le_last x hx1
      omega
    · have : x = g := List.mem_singleton.mp hx2
      omega
  have hmem2 : ∀ x ∈ grants ++ [g], g - 60000 < x →
      x ∈ b.1.requestTimestamps ++ [g] := by
    intro x hx hwin
    rcases List.mem_append.mp hx with hx1 | hx2
    · have hx_le : x ≤ s.lastRequestTime := inv.grants_le_last x hx1
      rcases hcases with ⟨hts, hb2⟩ | ⟨hts, hlen, hb2⟩
      · exfalso
        have hb2b : b.2 = n1 + 60000 := by
          simpa [BURST_COOLDOWN_MS] using hb2
        omega
      · refine List.mem_append.mpr (Or.inl ?_)
        rw [hts, hpts]
        refine List.mem_filter.mpr ⟨?_, ?_⟩
        · exact inv.mem_ts x hx1 (by omega)
        · simp only [decide_eq_true_eq]
          omega
    · have : x = g := List.mem_singleton.mp hx2
      subst this
      exact List.mem_append.mpr (Or.inr (by simp))
  have htsmem2 : ∀ y ∈ b.1.requestTimestamps ++ [g], y ∈ grants ++ [g] := by
    intro y hy
    rcases List.mem_append.mp hy with hy1 | hy2
    · rcases hcases with ⟨hts, _⟩ | ⟨hts, _, _⟩
      · rw [hts] at hy1
        cases hy1
      · rw [hts, hpts] at hy1
        have := (List.mem_filter.mp hy1).1
        exact List.mem_append.mpr (Or.inl (inv.ts_mem y this))
    · exact List.mem_append.mpr (Or.inr hy2)
  have htslen2 : (b.1.requestTimestamps ++ [g]).length ≤ MAX_REQUESTS_PER_MINUTE := by
    rw [List.length_append]
    rcases hcases with ⟨hts, _⟩ | ⟨hts, hlen, _⟩
    · rw [hts]
      simp [MAX_REQUESTS_PER_MINUTE]
    · rw [hts]
      simpa using hlen
  have hwc2 : ∀ x ∈ grants ++ [g],
      windowCount (grants ++ [g]) x ≤ MAX_REQUESTS_PER_MINUTE := by
    intro x hx
    rcases List.mem_append.mp hx with hx1 | hx2
    · have hxlt : ¬ (g ≤ x) := by
        have := inv.grants_le_last x hx1
        omega
      have hfil : [g].filter (inWindow x) = [] := by
        simp [inWindow, hxlt]
      rw [windowCount, List.filter_append, hfil, List.append_nil]
      exact inv.wc_grants x hx1
    · have hxg : x = g := List.mem_singleton.mp hx2
      subst hxg
      have hsub : ∀ y ∈ (grants ++ [x]).filter (inWindow x),
          y ∈ b.1.requestTimestamps ++ [x] := by
        intro y hy
        have hy1 := (List.mem_filter.mp hy).1
        have hy2 := (List.mem_filter.mp hy).2
        simp only [inWindow, Bool.and_eq_true, decide_eq_true_eq] at hy2
        exact hmem2 y hy1 hy2.1
      have hnd : ((grants ++ [x]).filter (inWindow x)).Nodup :=
        (spaced_nodup _ hsp2).filter _
      have hle := nodup_subset_length hnd hsub
      calc windowCount (grants ++ [x]) x
          ≤ (b.1.requestTimestamps ++ [x]).length := hle
      _ ≤ MAX_REQUESTS_PER_MINUTE := htslen2
  exact ⟨hsp2, hgle, le_refl g, hmem2, htsmem2, htslen2, hwc2⟩

theorem waitForSlot_step (s : RateLimiter) (now n0 : Int) (grants : List Int)
    (inv : RLInv s now grants) (hn0 : now ≤ n0) :
    RLInv (waitForSlot s n0).1 (waitForSlot s n0).2
      (grants ++ [(waitForSlot s n0).2]) :=
  waitForSlot_step_aux s now n0 (afterCooldown s n0).2
    (burstCheck (pruneWindow (afterCooldown s n0).1 (afterCooldown s n0).2)
      (afterCooldown s n0).2)
    (waitForSlot s n0).2 grants inv hn0 rfl rfl rfl

theorem runCalls_inv (ds : List Int) (s : RateLimiter) (now : Int)
    (grants : List Int) (inv : RLInv s now grants) (hds : ∀ d ∈ ds, 0 ≤ d) :
    RLInv (runCalls s now ds).1 (runCalls s now ds).2.1
      (grants ++ (runCalls s now ds).2.2) := by
  induction ds generalizing s now grants with
  | nil => simpa [runCalls] using inv
  | cons d rest ih =>
    have hd : (0:Int) ≤ d := hds d (by simp)
    have step := waitForSlot_step s now (now + d) grants inv (by omega)
    have ih2 := ih (waitForSlot s (now + d)).1 (waitForSlot s (now + d)).2
      (grants ++ [(waitForSlot s (now + d)).2]) step
      (fun x hx => hds x (List.mem_cons_of_mem d hx))
    simpa [runCalls, List.append_assoc] using ih2

theorem windowCount_le_of_grants (l : List Int) (hnd : l.Nodup)
    (h : ∀ g ∈ l, windowCount l g ≤ MAX_REQUESTS_PER_MINUTE) (t : Int) :
    windowCount l t ≤ MAX_REQUESTS_PER_MINUTE := by
  by_cases hemp : l.filter (inWindow t) = []
  · simp [windowCount, hemp, MAX_REQUESTS_PER_MINUTE]
  · obtain ⟨g, hmax⟩ :=
      WithBot.ne_bot_iff_exists.mp (List.maximum_ne_bot_of_ne_nil hemp)
    have hgf : g ∈ l.filter (inWindow t) := List.maximum_mem hmax.symm
    have hgl : g ∈ l := (List.mem_filter.mp hgf).1
    have hgw := (List.mem_filter.mp hgf).2
    simp only [inWindow, Bool.and_eq_true, decide_eq_true_eq] at hgw
    have hsub : ∀ y ∈ l.filter (inWindow t), y ∈ l.filter (inWindow g) := by
      intro y hy
      have hyl : y ∈ l := (List.mem_filter.mp hy).1
      have hyw := (List.mem_filter.mp hy).2
      simp only [inWindow, Bool.and_eq_true, decide_eq_true_eq] at hyw
      have hle : y ≤ g := List.le_maximum_of_mem hy hmax.symm
      refine List.mem_filter.mpr ⟨hyl, ?_⟩
      simp only [inWindow, Bool.and_eq_true, decide_eq_true_eq]
      exact ⟨by omega, hle⟩
    have hnd2 : (l.filter (inWindow t)).Nodup := hnd.filter _
    calc windowCount l t ≤ (l.filter (inWindow g)).length :=
        nodup_subset_length hnd2 hsub
    _ ≤ MAX_REQUESTS_PER_MINUTE := h g hgl

/-- C1: starting from the limiter's initial state at any clock `t0 ≥ 0`,
for every sequence of sequential `waitForSlot` calls (each starting a
non-negative delay after the previous one resolved), consecutive grant
times are spaced by at least `MIN_DELAY_MS`, and no rolling one-minute
window — `(t - 60000, t]` for any `t`, the window the code itself prunes
by — contains more than `MAX_REQUESTS_PER_MINUTE` grants. -/
theorem rateLimiter_spacing_and_window (t0 : Int) (ds : List Int)
    (ht0 : 0 ≤ t0) (hds : ∀ d ∈ ds, 0 ≤ d) :
    spaced (runCalls RateLimiter.init t0 ds).2.2 ∧
    ∀ t : Int, windowCount (runCalls RateLimiter.init t0 ds).2.2 t
        ≤ MAX_REQUESTS_PER_MINUTE := by
  have inv0 : RLInv RateLimiter.init t0 [] := by
    refine ⟨?_, ?_, ?_, ?_, ?_, ?_, ?_⟩
    · exact List.chain'_nil
    · intro g hg; cases hg
    · exact ht0
    · intro g hg; cases hg
    · intro ts hts; cases hts
    · simp [RateLimiter.init, MAX_REQUESTS_PER_MINUTE]
    · intro g hg; cases hg
  have inv := runCalls_inv ds RateLimiter.init t0 [] inv0 hds
  rw [List.nil_append] at inv
  exact ⟨inv.spacedGrants,
    fun t => windowCount_le_of_grants _ (spaced_nodup _ inv.spacedGrants)
      inv.wc_grants t⟩

/-- Witness for C1: three calls, the second after a 3-second pause. -/
theorem rateLimiter_spacing_and_window_witness :
    spaced (runCalls RateLimiter.init 5 [0, 3000, 0]).2.2 ∧
    ∀ t : Int, windowCount (runCalls RateLimiter.init 5 [0, 3000, 0]).2.2 t
        ≤ MAX_REQUESTS_PER_MINUTE :=
  rateLimiter_spacing_and_window 5 [0, 3000, 0] (by decide) (by decide)

/-- C2: a `waitForSlot` call that arrives with no cooldown active and finds
the pruned one-minute window already holding `MAX_REQUESTS_PER_MINUTE`
entries sets `throttleUntil = now + BURST_COOLDOWN_MS`, sleeps the full
cooldown, clears the window when the cooldown elapses, and is granted at
exactly `now + BURST_COOLDOWN_MS` — the resulting state holds only the new
grant in its window and `isThrottled` is false again. -/
theorem waitForSlot_burst_cooldown (s : RateLimiter) (now : Int)
    (hthr : s.isThrottled = false)
    (hlast : s.lastRequestTime ≤ now)
    (hfull : MAX_REQUESTS_PER_MINUTE ≤
      (s.requestTimestamps.filter (fun ts => decide (now - 60000 < ts))).length) :
    waitForSlot s now =
      (⟨now + BURST_COOLDOWN_MS, [now + BURST_COOLDOWN_MS], false,
        now + BURST_COOLDOWN_MS⟩, now + BURST_COOLDOWN_MS) := by
  have hc : afterCooldown s now = (s, now) := by
    simp [afterCooldown, hthr]
  have hcond : MAX_REQUESTS_PER_MINUTE
      ≤ (pruneWindow s now).requestTimestamps.length := by
    rw [pruneWindow_ts]
    exact hfull
  have h2 : burstCheck (pruneWindow s now) now
      = ({ pruneWindow s now with
            isThrottled := false,
            throttleUntil := now + BURST_COOLDOWN_MS,
            requestTimestamps := [] }, now + BURST_COOLDOWN_MS) := by
    simp only [burstCheck, if_pos hcond]
  have h3 : minDelayWait ({ pruneWindow s now with
        isThrottled := false,
        throttleUntil := now + BURST_COOLDOWN_MS,
        requestTimestamps := ([] : List Int) } : RateLimiter)
        (now + BURST_COOLDOWN_MS)
      = now + BURST_COOLDOWN_MS := by
    simp only [minDelayWait]
    split
    · next hlt =>
      exfalso
      have he : ({ pruneWindow s now with
          isThrottled := false,
          throttleUntil := now + BURST_COOLDOWN_MS,
          requestTimestamps := ([] : List Int) } : RateLimiter).lastRequestTime
          = s.lastRequestTime := rfl
      rw [he] at hlt
      simp only [BURST_COOLDOWN_MS, MIN_DELAY_MS] at hlt
      omega
    · rfl
  show ({ (burstCheck (pruneWindow (afterCooldown s now).1 (afterCooldown s now).2)
        (afterCooldown s now).2).1 with
      lastRequestTime := minDelayWait
        (burstCheck (pruneWindow (afterCooldown s now).1 (afterCooldown s now).2)
          (afterCooldown s now).2).1
        (burstCheck (pruneWindow (afterCooldown s now).1 (afterCooldown s now).2)
          (afterCooldown s now).2).2,
      requestTimestamps := (burstCheck
          (pruneWindow (afterCooldown s now).1 (afterCooldown s now).2)
          (afterCooldown s now).2).1.requestTimestamps
        ++ [minDelayWait
            (burstCheck (pruneWindow (afterCooldown s now).1 (afterCooldown s now).2)
              (afterCooldown s now).2).1
            (burstCheck (pruneWindow (afterCooldown s now).1 (afterCooldown s now).2)
              (afterCooldown s now).2).2] },
    minDelayWait
      (burstCheck (pruneWindow (afterCooldown s now).1 (afterCooldown s now).2)
        (afterCooldown s now).2).1
      (burstCheck (pruneWindow (afterCooldown s now).1 (afterCooldown s now).2)
        (afterCooldown s now).2).2)
    = (⟨now + BURST_COOLDOWN_MS, [now + BURST_COOLDOWN_MS], false,
        now + BURST_COOLDOWN_MS⟩, now + BURST_COOLDOWN_MS)
  rw [hc]
  simp only [h2, h3]
  rfl

set_option maxRecDepth 20000 in
/-- Witness for C2: after 15 rapid calls starting at clock 100000 the
window holds 15 grants, and the 16th rapid call is suspended for the full
burst cooldown, granted at exactly its arrival time + `BURST_COOLDOWN_MS`,
with the window cleared down to the single new grant. -/
theorem waitForSlot_burst_cooldown_witness :
    waitForSlot (runCalls RateLimiter.init 100000 (List.replicate 15 0)).1
        (runCalls RateLimiter.init 100000 (List.replicate 15 0)).2.1
      = (⟨(runCalls RateLimiter.init 100000 (List.replicate 15 0)).2.1
            + BURST_COOLDOWN_MS,
          [(runCalls RateLimiter.init 100000 (List.replicate 15 0)).2.1
            + BURST_COOLDOWN_MS],
          false,
          (runCalls RateLimiter.init 100000 (List.replicate 15 0)).2.1
            + BURST_COOLDOWN_MS⟩,
         (runCalls RateLimiter.init 100000 (List.replicate 15 0)).2.1
            + BURST_COOLDOWN_MS) :=
  waitForSlot_burst_cooldown
    (runCalls RateLimiter.init 100000 (List.replicate 15 0)).1
    (runCalls RateLimiter.init 100000 (List.replicate 15 0)).2.1
    (by decide) (by decide) (by decide)
